import Mathlib

/-!
# Verification of the bullet-note line editor

A shallow embedding of the editing core of `bullet.py`: the document is a
list of lines (each a list of characters), the cursor is a pair of integer
coordinates, and every operation below is a direct translation of the
corresponding Python function.  Python integers are modelled by `Int`;
Python sequence indexing (which accepts negative indices counting from the
end) is modelled by the `pyGetD`/`pySet`/`pyInsert`/`pyEraseIdx` helpers.
Where Python would raise `IndexError` the helpers return a default / leave
the list unchanged; the theorems below only exercise them on in-range
indices, where they agree with Python exactly.
-/

namespace BulletNote

/-- A line of the document, modelled as its list of characters. -/
abbrev Line := List Char

/-- Characters stripped by Python `str.strip()` / `str.lstrip()`
(ASCII whitespace). -/
def pyIsSpace (c : Char) : Bool :=
  c == ' ' || c == '\t' || c == '\n' || c == '\r' || c == '\x0b' || c == '\x0c'

/-- Python `str.lstrip()`. -/
def pyLstrip (l : Line) : Line :=
  l.dropWhile pyIsSpace

/-- Python `str.strip()`. -/
def pyStrip (l : Line) : Line :=
  ((l.dropWhile pyIsSpace).reverse.dropWhile pyIsSpace).reverse

/-- Python `s.startswith("-")`: true when the first character is `'-'`. -/
def startsWithDash (l : Line) : Bool :=
  match l with
  | '-' :: _ => true
  | _ => false

/-- Model of `get_whitespace_len(bullet)` from bullet.py:
`len(bullet) - len(bullet.lstrip())`. -/
def get_whitespace_len (bullet : Line) : Nat :=
  bullet.length - (pyLstrip bullet).length

/-- Model of `clamp(counter, minimum, maximum)` from bullet.py:
`min(max(counter, minimum), maximum - 1)` — note the exclusive upper bound. -/
def clamp (counter minimum maximum : Int) : Int :=
  min (max counter minimum) (maximum - 1)

/-- Python list indexing `l[i]` with the usual negative-index convention;
out-of-range access (an `IndexError` in Python) yields `[]` here and is
never exercised by the theorems below. -/
def pyGetD (l : List Line) (i : Int) : Line :=
  if i < 0 then l.getD (l.length + i).toNat [] else l.getD i.toNat []

/-- Python list item assignment `l[i] = v` (negative indices count from the
end; out-of-range assignment, an `IndexError` in Python, leaves `l`
unchanged here and is never exercised). -/
def pySet (l : List Line) (i : Int) (v : Line) : List Line :=
  if i < 0 then l.set (l.length + i).toNat v else l.set i.toNat v

/-- Python `l.insert(i, v)` (the index is clamped into `[0, len(l)]`,
negative indices count from the end; always inserts). -/
def pyInsert (l : List Line) (i : Int) (v : Line) : List Line :=
  if i < 0 then l.insertIdx (min (l.length + i).toNat l.length) v
  else l.insertIdx (min i.toNat l.length) v

/-- Python `l.pop(i)` restricted to its effect on the list, for a character
list (negative indices count from the end; out-of-range, an `IndexError`
in Python, leaves the list unchanged here and is never exercised). -/
def pyEraseIdx (l : Line) (i : Int) : Line :=
  if i < 0 then l.eraseIdx (l.length + i).toNat else l.eraseIdx i.toNat

/-- Python `bullets.pop(i)` on the document (same conventions as
`pyEraseIdx`). -/
def pyPopLine (l : List Line) (i : Int) : List Line :=
  if i < 0 then l.eraseIdx (l.length + i).toNat else l.eraseIdx i.toNat

/-- The cursor of bullet.py: `x` is the column (`relative_position`),
`y` the row (`current_line`). -/
structure Cursor where
  x : Int
  y : Int
deriving DecidableEq, Repr

/-- Model of `Cursor.get_nontext_length`: `get_whitespace_len(bullets[self.y]) + 2`. -/
def Cursor.get_nontext_length (c : Cursor) (bullets : List Line) : Int :=
  (get_whitespace_len (pyGetD bullets c.y) : Int) + 2

/-- Model of `Cursor.right(bullets, characters)` from bullet.py. -/
def Cursor.right (bullets : List Line) (characters : Int) (c : Cursor) : Cursor :=
  let line := pyGetD bullets c.y
  let chars := clamp characters 1 ((line.length : Int) - 1)
  if c.x + chars ≤ (line.length : Int) - 1 then
    { c with x := c.x + chars }
  else if (bullets.length : Int) ≤ c.y + 1 then
    c
  else
    let c' : Cursor := { c with y := c.y + 1 }
    { c' with x := max (c'.get_nontext_length bullets) 0 }

/-- Model of `Cursor.left(bullets, characters)` from bullet.py. -/
def Cursor.left (bullets : List Line) (characters : Int) (c : Cursor) : Cursor :=
  let line := pyGetD bullets c.y
  let chars := clamp characters 1 ((line.length : Int) - 1)
  if c.get_nontext_length bullets ≤ c.x - chars then
    { c with x := c.x - chars }
  else if c.y - 1 < 0 then
    c
  else
    let c' : Cursor := { c with y := c.y - 1 }
    { c' with x := ((pyGetD bullets c'.y).length : Int) - 1 }

/-- Model of `Cursor.up(bullets, characters)` from bullet.py. -/
def Cursor.up (bullets : List Line) (characters : Int) (c : Cursor) : Cursor :=
  if c.y - characters < 0 then
    c
  else
    let c' : Cursor := { c with y := c.y - characters }
    { c' with
      x := clamp c.x (c'.get_nontext_length bullets)
             ((pyGetD bullets c'.y).length : Int) }

/-- Model of `Cursor.down(bullets, characters)` from bullet.py. -/
def Cursor.down (bullets : List Line) (characters : Int) (c : Cursor) : Cursor :=
  if (bullets.length : Int) ≤ c.y + characters then
    c
  else
    let c' : Cursor := { c with y := c.y + characters }
    { c' with
      x := clamp c.x (c'.get_nontext_length bullets)
             ((pyGetD bullets c'.y).length : Int) }

/-- The three display symbols of `format_bullet`. -/
def symbols : List Char := ['•', '◦', '▪']

/-- Python `s.replace(old, new, 1)` for a single-character pattern and
replacement: replace the first occurrence only. -/
def replaceFirst (l : Line) (old new : Char) : Line :=
  match l with
  | [] => []
  | c :: rest => if c = old then new :: rest else c :: replaceFirst rest old new

/-- Model of `format_bullet(bullet)` from bullet.py, with the global `INDENT`
passed explicitly:
`bullet.replace("-", symbols[(len(bullet)-len(bullet.lstrip())) // INDENT % len(symbols)], 1)`. -/
def format_bullet (INDENT : Nat) (bullet : Line) : Line :=
  replaceFirst bullet '-'
    (symbols.getD (get_whitespace_len bullet / INDENT % symbols.length) '-')

/-- Python `data.split("\n")` on a character list. -/
def py_split_newline : List Char → List Line
  | [] => [[]]
  | c :: rest =>
    if c = '\n' then [] :: py_split_newline rest
    else
      match py_split_newline rest with
      | [] => [[c]]
      | l :: ls => (c :: l) :: ls

/-- Python `sep.join(pieces)`, used by `update_file` as `"\n".join(bullets)`. -/
def pyJoin (sep : List Char) : List Line → List Char
  | [] => []
  | [x] => x
  | x :: xs => x ++ sep ++ pyJoin sep xs

/-- The serialized form written by `update_file`: `"\n".join(bullets)`. -/
def serialize (bullets : List Line) : List Char :=
  pyJoin ['\n'] bullets

/-- A line on which `validate_file` raises: non-empty, and its stripped
form does not start with `-`. -/
def badLine (l : Line) : Bool :=
  !l.isEmpty && !startsWithDash (pyStrip l)

/-- The scanning loop of `validate_file`: the 1-based (when started at 1)
line number of the first offending line, if any. -/
def validate_go : Nat → List Line → Option Nat
  | _, [] => none
  | i, b :: rest => if badLine b then some i else validate_go (i + 1) rest

/-- Model of `validate_file(data)` from bullet.py: split on newlines, raise
`FileValidationError` naming the first offending 1-based line number,
otherwise return the split lines. -/
def validate_file (data : List Char) : Except Nat (List Line) :=
  match validate_go 1 (py_split_newline data) with
  | some i => Except.error i
  | none => Except.ok (py_split_newline data)

/-- Model of `make_printable_sublist(height, lst, cursor)` from bullet.py, split in
two: this helper computes the `start`/`end` pair of lines 161–167 of the
source (reached only when `height <= len(lst)`). -/
def windowBounds (height total cursor : Int) : Int × Int :=
  let start := max 0 (cursor - height / 2)
  let stop := min total (start + height)
  if stop - start < height then
    if start = 0 then (0, min total height)
    else (max 0 (stop - height), stop)
  else (start, stop)

/-- Python slicing `l[a:b]` (step 1): indices are wrapped when negative and
clamped into range. -/
def pySlice (l : List Line) (a b : Int) : List Line :=
  let n : Int := l.length
  let a' := if a < 0 then max 0 (n + a) else min a n
  let b' := if b < 0 then max 0 (n + b) else min b n
  (l.take b'.toNat).drop a'.toNat

/-- Model of `make_printable_sublist(height, lst, cursor)` from bullet.py: the
visible sublist together with the cursor offset inside it. -/
def make_printable_sublist (height : Int) (lst : List Line) (cursor : Int) :
    List Line × Int :=
  if (lst.length : Int) < height then (lst, cursor)
  else
    let b := windowBounds height lst.length cursor
    (pySlice lst b.1 b.2, cursor - b.1)

/-- Model of `add_bullet(bullets, cursor)` from bullet.py:
insert `bullets[cursor.y][: get_whitespace_len(bullets[cursor.y]) + 2] + " "`
at index `cursor.y + 1`, then `cursor.y += 1`. -/
def add_bullet (bullets : List Line) (c : Cursor) : List Line × Cursor :=
  let line := pyGetD bullets c.y
  let bullets' :=
    pyInsert bullets (c.y + 1) (line.take (get_whitespace_len line + 2) ++ [' '])
  (bullets', { c with y := c.y + 1 })

/-- Model of `indent(bullets, cursor)` from bullet.py, with the global `INDENT`
passed explicitly. -/
def indent (INDENT : Nat) (bullets : List Line) (c : Cursor) :
    List Line × Cursor :=
  (pySet bullets c.y (List.replicate INDENT ' ' ++ pyGetD bullets c.y),
   { c with x := c.x + INDENT })

/-- Model of `dedent(bullets, cursor)` from bullet.py, with the global `INDENT`
passed explicitly. -/
def dedent (INDENT : Nat) (bullets : List Line) (c : Cursor) :
    List Line × Cursor :=
  if 0 < get_whitespace_len (pyGetD bullets c.y) then
    (pySet bullets c.y ((pyGetD bullets c.y).drop INDENT),
     { c with x := c.x - INDENT })
  else (bullets, c)

/-- Model of `delete(bullets, cursor)` from bullet.py: `bullets.pop(cursor.y)` then
`cursor.y -= 1`. -/
def delete (bullets : List Line) (c : Cursor) : List Line × Cursor :=
  (pyPopLine bullets c.y, { c with y := c.y - 1 })

/-- The backspace branch of `main` (bullet.py lines 261–268): no-op when
`cursor.x <= 0`, otherwise remove the character at `cursor.x - 1` of the
current line and retreat the column by one. -/
def backspace (bullets : List Line) (c : Cursor) : List Line × Cursor :=
  if c.x ≤ 0 then (bullets, c)
  else
    let row := pyGetD bullets c.y
    (pySet bullets c.y (pyEraseIdx row (c.x - 1)), { c with x := c.x - 1 })

/-- The typable-character branch of `main` (bullet.py lines 269–275):
insert `ch` at the cursor column, then advance the column when it is
below the new line length. -/
def insert_char (bullets : List Line) (c : Cursor) (ch : Char) :
    List Line × Cursor :=
  let row := pyGetD bullets c.y
  let row' : Line :=
    if c.x < 0 then row.insertIdx (min ((row.length : Int) + c.x).toNat row.length) ch
    else row.insertIdx (min c.x.toNat row.length) ch
  let bullets' := pySet bullets c.y row'
  if c.x < ((pyGetD bullets' c.y).length : Int) then
    (bullets', { c with x := c.x + 1 })
  else (bullets', c)

/-- The cursor constructed at startup by `main`:
`Cursor(get_whitespace_len(bullets[0]) + 2, 0)`. -/
def initialCursor (bullets : List Line) : Cursor :=
  ⟨(get_whitespace_len (pyGetD bullets 0) : Int) + 2, 0⟩

/-! ## Helper lemmas -/

theorem pyGetD_of_nonneg (l : List Line) (i : Int) (h0 : 0 ≤ i) :
    pyGetD l i = l.getD i.toNat [] := by
  simp [pyGetD, not_lt.mpr h0]

theorem pySet_of_nonneg (l : List Line) (i : Int) (v : Line) (h0 : 0 ≤ i) :
    pySet l i v = l.set i.toNat v := by
  simp [pySet, not_lt.mpr h0]

theorem pyLstrip_replicate_append (w : Nat) (l : Line) :
    pyLstrip (List.replicate w ' ' ++ l) = pyLstrip l := by
  induction w with
  | zero => simp
  | succ n ih =>
    rw [List.replicate_succ, List.cons_append]
    simp only [pyLstrip] at ih ⊢
    rw [List.dropWhile_cons]
    simp [show pyIsSpace ' ' = true from rfl, ih]

theorem length_pyLstrip_le (l : Line) : (pyLstrip l).length ≤ l.length := by
  induction l with
  | nil => simp [pyLstrip]
  | cons a t ih =>
    by_cases h : pyIsSpace a
    · simp only [pyLstrip, List.dropWhile_cons, h, if_true, List.length_cons]
      exact Nat.le_succ_of_le ih
    · simp [pyLstrip, List.dropWhile_cons, h]

theorem get_whitespace_len_replicate_append (w : Nat) (l : Line) :
    get_whitespace_len (List.replicate w ' ' ++ l) = w + get_whitespace_len l := by
  have h := length_pyLstrip_le l
  simp only [get_whitespace_len, pyLstrip_replicate_append, List.length_append,
    List.length_replicate]
  omega

theorem set_getD_self (l : List Line) (n : Nat) :
    l.set n (l.getD n []) = l := by
  induction l generalizing n with
  | nil => simp
  | cons a t ih =>
    cases n with
    | zero => simp
    | succ m =>
      have := ih m
      simp only [List.getD, List.get?_eq_getElem?] at this
      simp [this]

/-! ## Claim C2 -/

/-- Claim C2 as stated is false: on the single-line document `["- root"]`
with the cursor at `(row 0, col 2)`, `right(10)` does not leave the
cursor at column 5. -/
theorem C2_counterexample :
    ¬ (Cursor.right ["- root".toList] 10 ⟨2, 0⟩).x = 5 := by decide

/-- Claim C2 amended: `right(10)` from `(row 0, col 2)` on `["- root"]` is
a no-op — the step count is clamped by `clamp(10, 1, 5) = min(max(10,1), 4)`
to 4, column `2 + 4 = 6` would exceed the last valid offset 5, and no next
line exists, so the cursor stays at column 2. -/
theorem C2_amended :
    Cursor.right ["- root".toList] 10 ⟨2, 0⟩ = ⟨2, 0⟩ := by decide

/-! ## Claim C5 -/

/-- Claim C5 as stated is false: `add_bullet` on `["- root"]` at row 0
does not produce the document `["- root", "- "]`. -/
theorem C5_counterexample :
    ¬ (add_bullet ["- root".toList] ⟨2, 0⟩).1 = ["- root".toList, "- ".toList] := by
  decide

/-- Claim C5 amended: `add_bullet` on `["- root"]` with the cursor at
`(row 0, col 2)` yields `["- root", "-  "]` — the inherited prefix,
marker and separating space plus one further space appended as placeholder
content — and the cursor moves to row 1 with its column left unchanged
at 2 (which is the new line's first content position). -/
theorem C5_amended :
    add_bullet ["- root".toList] ⟨2, 0⟩ = (["- root".toList, "-  ".toList], ⟨2, 1⟩) := by
  decide

/-! ## Claim C3 -/

/-- Claim C3 as stated is false: on `["- root"]` with the cursor at
`(row 0, col 2)` — and column 2 is exactly `nontext_length(0)` — the
backspace branch is not a no-op. -/
theorem C3_counterexample :
    Cursor.get_nontext_length ⟨2, 0⟩ ["- root".toList] = 2 ∧
    ¬ backspace ["- root".toList] ⟨2, 0⟩ = (["- root".toList], ⟨2, 0⟩) := by
  decide

/-- Claim C3 amended: the backward character-delete is a no-op exactly when
`col ≤ 0`; with any positive column — in particular at
`col = nontext_length(row) ≥ 2` — it removes the character immediately
before the cursor column (reaching into the marker-plus-space region) and
retreats the column by one. -/
theorem C3_amended (bullets : List Line) (c : Cursor) :
    (0 < c.x →
      backspace bullets c =
        (pySet bullets c.y (pyEraseIdx (pyGetD bullets c.y) (c.x - 1)),
         ⟨c.x - 1, c.y⟩)) ∧
    (c.x ≤ 0 → backspace bullets c = (bullets, c)) := by
  constructor
  · intro h
    simp [backspace, not_le.mpr h]
  · intro h
    simp [backspace, h]

/-- Witness for `C3_amended`: at the concrete input of the scenario the
deletion branch fires and removes the space after the marker. -/
theorem C3_witness :
    backspace ["- root".toList] ⟨2, 0⟩ = (["-root".toList], ⟨1, 0⟩) := by
  have h := (C3_amended ["- root".toList] ⟨2, 0⟩).1 (by decide)
  rw [h]
  decide

/-! ## Claim C4 -/

/-- Claim C4 as stated is false: `delete` on the one-line document
`["- a"]` with the cursor at row 0 empties the document and sets the
cursor row to `-1`, which is not a valid index. -/
theorem C4_counterexample :
    delete ["- a".toList] ⟨2, 0⟩ = ([], ⟨2, -1⟩) ∧
    ¬ (0 ≤ (delete ["- a".toList] ⟨2, 0⟩).2.y) := by decide

/-! ## Claim C10 -/

/-- Claim C10: for every positive indent width, document and in-range
cursor row, `dedent` applied immediately after `indent` restores the
document and the cursor exactly — `indent` raises the current line's
whitespace length above zero, so `dedent`'s depth-0 guard cannot fire. -/
theorem C10_dedent_indent (w : Nat) (hw : 0 < w) (bullets : List Line)
    (c : Cursor) (hy0 : 0 ≤ c.y) (hy : c.y < (bullets.length : Int)) :
    dedent w (indent w bullets c).1 (indent w bullets c).2 = (bullets, c) := by
  have hyn : c.y.toNat < bullets.length := by omega
  set line := pyGetD bullets c.y with hline
  have hget : pyGetD bullets c.y = bullets.getD c.y.toNat [] :=
    pyGetD_of_nonneg bullets c.y hy0
  have hset : ∀ v, pySet bullets c.y v = bullets.set c.y.toNat v := fun v =>
    pySet_of_nonneg bullets c.y v hy0
  have hind : indent w bullets c =
      (bullets.set c.y.toNat (List.replicate w ' ' ++ line),
       { c with x := c.x + w }) := by
    simp [indent, hset, hline]
  rw [hind]
  have hget' : pyGetD (bullets.set c.y.toNat (List.replicate w ' ' ++ line))
      c.y = List.replicate w ' ' ++ line := by
    rw [pyGetD_of_nonneg _ _ hy0]
    rw [List.getD_eq_getElem?_getD, List.getElem?_set_self]
    · simp
    · simpa using hyn
  have hws : 0 < get_whitespace_len (List.replicate w ' ' ++ line) := by
    rw [get_whitespace_len_replicate_append]
    omega
  have hdrop : (List.replicate w ' ' ++ line).drop w = line := by
    simp
  simp only [dedent]
  rw [hget']
  rw [if_pos hws]
  rw [hdrop]
  have hsetset : pySet (bullets.set c.y.toNat (List.replicate w ' ' ++ line))
      c.y line = bullets := by
    rw [pySet_of_nonneg _ _ _ hy0]
    · rw [List.set_set]
      have : line = bullets.getD c.y.toNat [] := by rw [hline, hget]
      rw [this, set_getD_self]
  rw [hsetset]
  cases c
  simp

/-- Witness for `C10_dedent_indent`: indent-then-dedent on `["- root"]`
at `(row 0, col 2)` with indent width 2 restores the state. -/
theorem C10_witness :
    dedent 2 (indent 2 ["- root".toList] ⟨2, 0⟩).1
      (indent 2 ["- root".toList] ⟨2, 0⟩).2 = (["- root".toList], ⟨2, 0⟩) :=
  C10_dedent_indent 2 (by decide) ["- root".toList] ⟨2, 0⟩ (by decide) (by decide)

/-! ## Claim C7 -/

theorem py_split_newline_ne_nil (l : List Char) : py_split_newline l ≠ [] := by
  cases l with
  | nil => simp [py_split_newline]
  | cons c rest =>
    simp only [py_split_newline]
    by_cases h : c = '\n'
    · simp [h]
    · simp only [h, if_false]
      cases py_split_newline rest <;> simp

theorem pyJoin_py_split_newline (l : List Char) :
    pyJoin ['\n'] (py_split_newline l) = l := by
  induction l with
  | nil => rfl
  | cons c rest ih =>
    simp only [py_split_newline]
    by_cases h : c = '\n'
    · subst h
      simp only [if_pos rfl]
      obtain ⟨a, t, ht⟩ : ∃ a t, py_split_newline rest = a :: t := by
        cases hs : py_split_newline rest with
        | nil => exact absurd hs (py_split_newline_ne_nil rest)
        | cons a t => exact ⟨a, t, rfl⟩
      rw [ht]
      rw [ht] at ih
      show [] ++ ['\n'] ++ pyJoin ['\n'] (a :: t) = '\n' :: rest
      simp [ih]
    · simp only [h, if_false]
      cases hs : py_split_newline rest with
      | nil => exact absurd hs (py_split_newline_ne_nil rest)
      | cons a t =>
        rw [hs] at ih
        cases t with
        | nil =>
          show c :: a = c :: rest
          rw [show pyJoin ['\n'] [a] = a from rfl] at ih
          rw [ih]
        | cons b t' =>
          show (c :: a) ++ ['\n'] ++ pyJoin ['\n'] (b :: t') = c :: rest
          rw [show pyJoin ['\n'] (a :: b :: t') =
            a ++ ['\n'] ++ pyJoin ['\n'] (b :: t') from rfl] at ih
          simp only [List.cons_append]
          rw [← ih]

theorem validate_file_ok (data : List Char) (L : List Line)
    (h : validate_file data = Except.ok L) : L = py_split_newline data := by
  unfold validate_file at h
  cases hg : validate_go 1 (py_split_newline data) with
  | some i => rw [hg] at h; exact absurd h (by simp)
  | none =>
    rw [hg] at h
    simp only [Except.ok.injEq] at h
    exact h.symm

/-- Claim C7: for every document whose serialized form passes validation,
re-serializing the loaded result gives back the serialized text —
`serialize (load (serialize D)) = serialize D`. -/
theorem C7_roundtrip (D L : List Line)
    (h : validate_file (serialize D) = Except.ok L) :
    serialize L = serialize D := by
  rw [validate_file_ok _ _ h]
  exact pyJoin_py_split_newline (serialize D)

/-- Witness for `C7_roundtrip`: the one-line document whose single line
contains an embedded newline serializes to `"- a\nx- b"`-style text that
splits into two lines; re-serialization restores the text. -/
theorem C7_witness :
    serialize ["- a".toList, "- b".toList] = serialize ["- a\n- b".toList] :=
  C7_roundtrip ["- a\n- b".toList] ["- a".toList, "- b".toList] (by rfl)

/-! ## Claim C8 -/

theorem validate_go_eq_none (ls : List Line) :
    ∀ i, validate_go i ls = none ↔
      ∀ j l, ls.get? j = some l → badLine l = false := by
  induction ls with
  | nil => intro i; simp [validate_go]
  | cons b rest ih =>
    intro i
    by_cases hb : badLine b
    · have hstep : validate_go i (b :: rest) = some i := by
        simp [validate_go, hb]
      rw [hstep]
      constructor
      · intro h; exact absurd h (by simp)
      · intro h
        have := h 0 b rfl
        rw [hb] at this
        exact absurd this (by simp)
    · have hstep : validate_go i (b :: rest) = validate_go (i + 1) rest := by
        simp [validate_go, hb]
      rw [hstep]
      rw [ih (i + 1)]
      constructor
      · intro h j l hj
        cases j with
        | zero =>
          cases hj
          exact Bool.eq_false_iff.mpr hb
        | succ m => exact h m l hj
      · intro h j l hj
        exact h (j + 1) l hj

theorem validate_go_eq_some (ls : List Line) :
    ∀ i n, validate_go i ls = some n →
      i ≤ n ∧
      (∃ l, ls.get? (n - i) = some l ∧ badLine l = true) ∧
      (∀ j l, j < n - i → ls.get? j = some l → badLine l = false) := by
  induction ls with
  | nil => intro i n h; exact absurd h (by simp [validate_go])
  | cons b rest ih =>
    intro i n h
    by_cases hb : badLine b
    · have hstep : validate_go i (b :: rest) = some i := by
        simp [validate_go, hb]
      rw [hstep, Option.some.injEq] at h
      subst h
      refine ⟨le_refl i, ⟨b, by simp, hb⟩, ?_⟩
      intro j l hj
      omega
    · have hstep : validate_go i (b :: rest) = validate_go (i + 1) rest := by
        simp [validate_go, hb]
      rw [hstep] at h
      obtain ⟨h1, ⟨l, hl, hbad⟩, hmin⟩ := ih (i + 1) n h
      refine ⟨by omega, ⟨l, ?_, hbad⟩, ?_⟩
      · have : n - i = (n - (i + 1)) + 1 := by omega
        rw [this]
        simpa using hl
      · intro j l' hj hl'
        cases j with
        | zero =>
          cases hl'
          exact Bool.eq_false_iff.mpr hb
        | succ m =>
          exact hmin m l' (by omega) (by simpa using hl')

/-- Claim C8: loading fails with the 1-based number of the first offending
line exactly when some non-empty line of the newline-split input has a
whitespace-trimmed form not starting with `-` (`badLine`); empty lines
never cause failure, and on success the returned document is exactly the
split input, unchanged. -/
theorem C8_validate (data : List Char) :
    (∀ L, validate_file data = Except.ok L → L = py_split_newline data) ∧
    ((∃ n, validate_file data = Except.error n) ↔
      ∃ j l, (py_split_newline data).get? j = some l ∧ badLine l = true) ∧
    (∀ n, validate_file data = Except.error n →
      1 ≤ n ∧
      (∃ l, (py_split_newline data).get? (n - 1) = some l ∧ badLine l = true) ∧
      (∀ j l, j < n - 1 → (py_split_newline data).get? j = some l →
        badLine l = false)) := by
  refine ⟨fun L h => validate_file_ok data L h, ?_, ?_⟩
  · constructor
    · rintro ⟨n, hn⟩
      unfold validate_file at hn
      cases hg : validate_go 1 (py_split_newline data) with
      | some i =>
        obtain ⟨_, ⟨l, hl, hbad⟩, _⟩ := validate_go_eq_some _ 1 i hg
        exact ⟨i - 1, l, hl, hbad⟩
      | none => rw [hg] at hn; exact absurd hn (by simp)
    · rintro ⟨j, l, hj, hbad⟩
      unfold validate_file
      cases hg : validate_go 1 (py_split_newline data) with
      | some i => exact ⟨i, rfl⟩
      | none =>
        have := (validate_go_eq_none _ 1).mp hg j l hj
        rw [hbad] at this
        exact absurd this (by simp)
  · intro n hn
    unfold validate_file at hn
    cases hg : validate_go 1 (py_split_newline data) with
    | some i =>
      rw [hg] at hn
      simp only [Except.error.injEq] at hn
      subst hn
      exact validate_go_eq_some _ 1 _ hg
    | none => rw [hg] at hn; exact absurd hn (by simp)

/-- Witness for `C8_validate`: the input `"- a\nx"` fails validation (its
second line, `"x"`, does not start with the marker after trimming). -/
theorem C8_witness :
    ∃ n, validate_file "- a\nx".toList = Except.error n :=
  (C8_validate "- a\nx".toList).2.1.mpr ⟨1, ['x'], by rfl, by rfl⟩

/-! ## Claim C9 -/

theorem replaceFirst_replicate_space (n : Nat) (g : Char) (rest : Line) :
    replaceFirst (List.replicate n ' ' ++ '-' :: rest) '-' g =
    List.replicate n ' ' ++ g :: rest := by
  induction n with
  | zero => simp [replaceFirst]
  | succ m ih =>
    rw [List.replicate_succ, List.cons_append, List.cons_append]
    simp only [replaceFirst]
    rw [if_neg (by decide)]
    rw [ih]

theorem get_whitespace_len_replicate_dash (n : Nat) (rest : Line) :
    get_whitespace_len (List.replicate n ' ' ++ '-' :: rest) = n := by
  rw [get_whitespace_len_replicate_append]
  have : pyLstrip ('-' :: rest) = '-' :: rest := by
    simp [pyLstrip, List.dropWhile_cons, pyIsSpace]
  simp [get_whitespace_len, this]

/-- Claim C9: `format_bullet` on a line made of `d * w` spaces of
indentation, the on-disk marker `-` and arbitrary remaining text replaces
the marker by the palette symbol of index `d % 3` and leaves indentation
and the rest of the line unchanged (palette `•`, `◦`, `▪`). -/
theorem C9_format (w d : Nat) (hw : 0 < w) (rest : Line) :
    format_bullet w (List.replicate (d * w) ' ' ++ '-' :: rest) =
    List.replicate (d * w) ' ' ++ (symbols.getD (d % 3) '-') :: rest := by
  unfold format_bullet
  rw [get_whitespace_len_replicate_dash]
  rw [Nat.mul_div_cancel d hw]
  rw [show symbols.length = 3 from rfl]
  exact replaceFirst_replicate_space _ _ rest

/-- Witness for `C9_format`: depth 1 at indent width 2 renders the
secondary symbol: `"  - x"` becomes `"  ◦ x"`. -/
theorem C9_witness : format_bullet 2 "  - x".toList = "  ◦ x".toList := by
  have h := C9_format 2 1 (by decide) [' ', 'x']
  have e1 : "  - x".toList = List.replicate (1 * 2) ' ' ++ '-' :: [' ', 'x'] := by
    decide
  have e2 : "  ◦ x".toList =
      List.replicate (1 * 2) ' ' ++ (symbols.getD (1 % 3) '-') :: [' ', 'x'] := by
    decide
  rw [e1, e2, h]

/-! ## Claim C6 -/

theorem windowBounds_spec (height total cursor : Int) (hh : 1 ≤ height)
    (hc0 : 0 ≤ cursor) (hc : cursor < total) (ht : height ≤ total) :
    0 ≤ (windowBounds height total cursor).1 ∧
    (windowBounds height total cursor).1 ≤ cursor ∧
    cursor < (windowBounds height total cursor).2 ∧
    (windowBounds height total cursor).2 ≤ total ∧
    (windowBounds height total cursor).2 - (windowBounds height total cursor).1 =
      height := by
  unfold windowBounds
  dsimp only
  split_ifs with h1 h2 <;> dsimp only <;> omega

theorem pySlice_length (l : List Line) (a b : Int) (h0 : 0 ≤ a) (hab : a ≤ b)
    (hb : b ≤ (l.length : Int)) :
    ((pySlice l a b).length : Int) = b - a := by
  unfold pySlice
  dsimp only
  rw [if_neg (by omega), if_neg (by omega)]
  rw [min_eq_left hb, min_eq_left (le_trans hab hb)]
  simp only [List.length_drop, List.length_take]
  omega

/-- Claim C6: for `height ≥ 1` and a cursor row inside the document, the
viewport `make_printable_sublist height lst cursor = (sub, cur)` renders
`min height (len lst)` lines, the cursor lies inside the window
(`0 ≤ cur < len sub`, i.e. `start ≤ cursor < start + length` for
`start = cursor - cur`), and when the document is shorter than the height
the whole document is visible with no offset. -/
theorem C6_viewport (height : Int) (lst : List Line) (cursor : Int)
    (hh : 1 ≤ height) (hc0 : 0 ≤ cursor) (hc : cursor < (lst.length : Int)) :
    (((make_printable_sublist height lst cursor).1.length : Int) =
      min height lst.length) ∧
    0 ≤ (make_printable_sublist height lst cursor).2 ∧
    (make_printable_sublist height lst cursor).2 <
      ((make_printable_sublist height lst cursor).1.length : Int) ∧
    ((lst.length : Int) < height →
      (make_printable_sublist height lst cursor).1 = lst ∧
      (make_printable_sublist height lst cursor).2 = cursor) := by
  by_cases hlt : (lst.length : Int) < height
  · have hr : make_printable_sublist height lst cursor = (lst, cursor) := by
      unfold make_printable_sublist
      rw [if_pos hlt]
    rw [hr]
    dsimp only
    refine ⟨by omega, hc0, hc, fun _ => ⟨rfl, rfl⟩⟩
  · have ht : height ≤ (lst.length : Int) := by omega
    obtain ⟨hb0, hbc, hcb, hbt, hlen⟩ :=
      windowBounds_spec height lst.length cursor hh hc0 hc ht
    have hr : make_printable_sublist height lst cursor =
        (pySlice lst (windowBounds height lst.length cursor).1
          (windowBounds height lst.length cursor).2,
         cursor - (windowBounds height lst.length cursor).1) := by
      unfold make_printable_sublist
      rw [if_neg hlt]
    rw [hr]
    dsimp only
    have hslen : ((pySlice lst (windowBounds height lst.length cursor).1
        (windowBounds height lst.length cursor).2).length : Int) = height := by
      rw [pySlice_length _ _ _ hb0 (by omega) hbt]
      omega
    refine ⟨by rw [hslen]; omega, by omega, by rw [hslen]; omega, fun h => absurd h hlt⟩

/-- Witness for `C6_viewport`: a ten-line document viewed at height 4 with
the cursor on the last row keeps the cursor inside the rendered window. -/
theorem C6_witness :
    0 ≤ (make_printable_sublist 4 (List.replicate 10 "- a".toList) 9).2 ∧
    (make_printable_sublist 4 (List.replicate 10 "- a".toList) 9).2 <
      ((make_printable_sublist 4 (List.replicate 10 "- a".toList) 9).1.length : Int) :=
  ⟨(C6_viewport 4 (List.replicate 10 "- a".toList) 9 (by decide) (by decide)
      (by simp)).2.1,
   (C6_viewport 4 (List.replicate 10 "- a".toList) 9 (by decide) (by decide)
      (by simp)).2.2.1⟩

/-! ## The event loop as a step relation (for claims C1 and C4) -/

/-- The abstract key events dispatched by `main` that mutate the cursor or
the document.  Movement counts are natural numbers: the event loop always
passes the default `1`, and a negative count would make the Python
`Cursor` methods index out of range. -/
inductive EOp where
  | up (n : Nat)
  | down (n : Nat)
  | left (n : Nat)
  | right (n : Nat)
  | newline
  | indentOp
  | dedentOp
  | deleteOp
  | insert (ch : Char)
  | backspaceOp
deriving DecidableEq

/-- One dispatch step of `main`: apply the operation for a key event to
the document/cursor pair (indent width `w`). -/
def applyOp (w : Nat) (op : EOp) (s : List Line × Cursor) : List Line × Cursor :=
  match op with
  | .up n => (s.1, Cursor.up s.1 n s.2)
  | .down n => (s.1, Cursor.down s.1 n s.2)
  | .left n => (s.1, Cursor.left s.1 n s.2)
  | .right n => (s.1, Cursor.right s.1 n s.2)
  | .newline => add_bullet s.1 s.2
  | .indentOp => indent w s.1 s.2
  | .dedentOp => dedent w s.1 s.2
  | .deleteOp => delete s.1 s.2
  | .insert ch => insert_char s.1 s.2 ch
  | .backspaceOp => backspace s.1 s.2

/-- Whether an event is one of the four cursor movements. -/
def isMove : EOp → Bool
  | .up _ => true
  | .down _ => true
  | .left _ => true
  | .right _ => true
  | _ => false

/-- The cursor row is a valid document index. -/
abbrev rowValid (s : List Line × Cursor) : Prop :=
  0 ≤ s.2.y ∧ s.2.y < (s.1.length : Int)

/-! ## Claim C4 -/

theorem length_pyInsert (l : List Line) (i : Int) (v : Line) :
    (pyInsert l i v).length = l.length + 1 := by
  unfold pyInsert
  split_ifs with h <;>
    exact List.length_insertIdx _ _ (by omega)

theorem rowValid_applyOp (w : Nat) (op : EOp) (s : List Line × Cursor)
    (hv : rowValid s) (hdel : op = EOp.deleteOp → 1 ≤ s.2.y) :
    rowValid (applyOp w op s) := by
  obtain ⟨bs, c⟩ := s
  obtain ⟨h0, h1⟩ := hv
  simp only at h0 h1
  cases op with
  | up n =>
    simp only [applyOp, Cursor.up]
    split_ifs with h <;> constructor <;> simp only <;> omega
  | down n =>
    simp only [applyOp, Cursor.down]
    split_ifs with h <;> constructor <;> simp only <;> omega
  | left n =>
    simp only [applyOp, Cursor.left]
    split_ifs with h h' <;> constructor <;> simp only <;> omega
  | right n =>
    simp only [applyOp, Cursor.right]
    split_ifs with h h' <;> constructor <;> simp only <;> omega
  | newline =>
    simp only [applyOp, add_bullet]
    constructor
    · simp only; omega
    · simp only [length_pyInsert]
      push_cast
      omega
  | indentOp =>
    simp only [applyOp, indent, pySet]
    split_ifs with h <;> constructor <;> simp only [List.length_set] <;> omega
  | dedentOp =>
    simp only [applyOp, dedent, pySet]
    split_ifs with h h' <;> constructor <;>
      simp only [List.length_set] <;> omega
  | deleteOp =>
    have hy := hdel rfl
    simp only at hy
    simp only [applyOp, delete, pyPopLine]
    rw [if_neg (by omega)]
    have hlt : c.y.toNat < bs.length := by omega
    have := List.length_eraseIdx_add_one hlt
    constructor <;> simp only <;> omega
  | insert ch =>
    simp only [applyOp, insert_char, pySet]
    split_ifs with h h' h'' <;> constructor <;>
      simp only [List.length_set] <;> omega
  | backspaceOp =>
    simp only [applyOp, backspace, pySet]
    split_ifs with h h' <;> constructor <;>
      simp only [List.length_set] <;> omega

/-- Editor states reachable from `s` by dispatch steps in which `delete`
is only ever invoked with the cursor at row 1 or below it (the guard the
reference code lacks for row 0). -/
inductive Reaches (w : Nat) : (List Line × Cursor) → (List Line × Cursor) → Prop
  | refl (s : List Line × Cursor) : Reaches w s s
  | step (s t : List Line × Cursor) (op : EOp) (h : Reaches w s t)
      (hdel : op = EOp.deleteOp → 1 ≤ t.2.y) :
      Reaches w s (applyOp w op t)

/-- Claim C4 amended: starting from any state whose cursor row is a valid
index, the row stays a valid index (`0 ≤ row < line count`) after every
movement and edit operation, provided `delete` is never applied at row 0 —
`delete` at row 0 empties or shortens the document and leaves `row = -1`
(see `C4_counterexample`). -/
theorem C4_amended (w : Nat) (s t : List Line × Cursor) (h0 : rowValid s)
    (hr : Reaches w s t) : rowValid t := by
  induction hr with
  | refl => exact h0
  | step t' op h hdel ih => exact rowValid_applyOp w op t' ih hdel

/-- Witness for `C4_amended`: one `down` step from row 0 of a two-line
document keeps the row valid. -/
theorem C4_witness :
    rowValid (applyOp 2 (EOp.down 1) (["- a".toList, "- b".toList], ⟨2, 0⟩)) :=
  C4_amended 2 (["- a".toList, "- b".toList], ⟨2, 0⟩) _
    ⟨by decide, by decide⟩
    (Reaches.step _ _ _ (Reaches.refl _) (by intro h; exact absurd h (by decide)))

/-! ## Claim C1 -/

/-- A valid loaded document in the sense of claim C1, strengthened by the
minimum-content condition the code actually needs: the document is
non-empty; every line's trimmed form starts with the marker, its
indentation is spaces in a multiple of the indent width, and it has at
least one character beyond the marker-plus-space region
(`get_whitespace_len l + 3 ≤ len l`). -/
abbrev validDoc (w : Nat) (bs : List Line) : Prop :=
  bs ≠ [] ∧ ∀ l ∈ bs,
    startsWithDash (pyStrip l) = true ∧
    get_whitespace_len l % w = 0 ∧
    (∀ ch ∈ l.take (get_whitespace_len l), ch = ' ') ∧
    get_whitespace_len l + 3 ≤ l.length

/-- The cursor invariant of claim C1: the row is a valid index and the
column lies between the line's nontext length and its last character
offset. -/
abbrev cursorInv (bs : List Line) (c : Cursor) : Prop :=
  0 ≤ c.y ∧ c.y < (bs.length : Int) ∧
  Cursor.get_nontext_length c bs ≤ c.x ∧
  c.x ≤ ((pyGetD bs c.y).length : Int) - 1

theorem validDoc_line (w : Nat) (bs : List Line) (hv : validDoc w bs)
    (i : Int) (h0 : 0 ≤ i) (hi : i < (bs.length : Int)) :
    get_whitespace_len (pyGetD bs i) + 3 ≤ (pyGetD bs i).length := by
  have hn : i.toNat < bs.length := by omega
  rw [pyGetD_of_nonneg _ _ h0]
  have hmem : bs.getD i.toNat [] ∈ bs := by
    rw [List.getD_eq_getElem?_getD, List.getElem?_eq_getElem hn]
    exact List.getElem_mem hn
  exact (hv.2 _ hmem).2.2.2

theorem cursorInv_move (w : Nat) (bs : List Line) (c : Cursor) (op : EOp)
    (hv : validDoc w bs) (hinv : cursorInv bs c) (hm : isMove op = true) :
    (applyOp w op (bs, c)).1 = bs ∧ cursorInv bs (applyOp w op (bs, c)).2 := by
  obtain ⟨hy0, hy1, hx0, hx1⟩ := hinv
  simp only [Cursor.get_nontext_length] at hx0
  have hcur := validDoc_line w bs hv c.y hy0 hy1
  cases op with
  | up n =>
    refine ⟨rfl, ?_⟩
    simp only [applyOp, Cursor.up]
    split_ifs with h
    · exact ⟨hy0, hy1, le_trans (by simp [Cursor.get_nontext_length]) hx0, hx1⟩
    · have htgt := validDoc_line w bs hv (c.y - n) (by omega) (by omega)
      unfold cursorInv Cursor.get_nontext_length clamp
      simp only
      omega
  | down n =>
    refine ⟨rfl, ?_⟩
    simp only [applyOp, Cursor.down]
    split_ifs with h
    · exact ⟨hy0, hy1, le_trans (by simp [Cursor.get_nontext_length]) hx0, hx1⟩
    · have htgt := validDoc_line w bs hv (c.y + n) (by omega) (by omega)
      unfold cursorInv Cursor.get_nontext_length clamp
      simp only
      omega
  | left n =>
    refine ⟨rfl, ?_⟩
    simp only [applyOp, Cursor.left, Cursor.get_nontext_length, clamp]
    split_ifs with h h'
    · refine ⟨hy0, hy1, ?_, ?_⟩
      · simp only [Cursor.get_nontext_length]
        omega
      · simp only
        omega
    · exact ⟨hy0, hy1, le_trans (by simp [Cursor.get_nontext_length]) hx0, hx1⟩
    · have htgt := validDoc_line w bs hv (c.y - 1) (by omega) (by omega)
      unfold cursorInv Cursor.get_nontext_length
      simp only
      omega
  | right n =>
    refine ⟨rfl, ?_⟩
    simp only [applyOp, Cursor.right, Cursor.get_nontext_length, clamp]
    split_ifs with h h'
    · refine ⟨hy0, hy1, ?_, ?_⟩
      · simp only [Cursor.get_nontext_length]
        omega
      · simp only
        omega
    · exact ⟨hy0, hy1, le_trans (by simp [Cursor.get_nontext_length]) hx0, hx1⟩
    · have htgt := validDoc_line w bs hv (c.y + 1) (by omega) (by omega)
      unfold cursorInv Cursor.get_nontext_length
      simp only
      omega
  | newline => exact absurd hm (by simp [isMove])
  | indentOp => exact absurd hm (by simp [isMove])
  | dedentOp => exact absurd hm (by simp [isMove])
  | deleteOp => exact absurd hm (by simp [isMove])
  | insert ch => exact absurd hm (by simp [isMove])
  | backspaceOp => exact absurd hm (by simp [isMove])

/-- Folding a sequence of dispatch steps over a state. -/
def applyOps (w : Nat) (ops : List EOp) (s : List Line × Cursor) :
    List Line × Cursor :=
  ops.foldl (fun t op => applyOp w op t) s

/-- Claim C1 amended: for every valid loaded document in which every line
also has at least one content character (`get_whitespace_len + 3 ≤ len`,
the minimum-content placeholder), after any finite sequence of cursor
movements from the startup cursor the document is unchanged and the
column satisfies `nontext_length(row) ≤ col ≤ len(line[row]) - 1`
(equivalently `col ≤ max(len - 1, nontext_length)`, as the two coincide
under the minimum-content condition).  Without that extra condition the
claim is false: see `C1_counterexample`. -/
theorem C1_amended (w : Nat) (bs : List Line) (hv : validDoc w bs)
    (ops : List EOp) (hm : ∀ op ∈ ops, isMove op = true) :
    (applyOps w ops (bs, initialCursor bs)).1 = bs ∧
    cursorInv bs (applyOps w ops (bs, initialCursor bs)).2 := by
  have hlen : (0 : Int) < bs.length := by
    have := List.length_pos.mpr hv.1
    omega
  have hinit : cursorInv bs (initialCursor bs) := by
    have hline := validDoc_line w bs hv 0 (le_refl 0) hlen
    unfold initialCursor cursorInv Cursor.get_nontext_length
    simp only
    omega
  suffices h : ∀ (os : List EOp), (∀ op ∈ os, isMove op = true) →
      ∀ s : List Line × Cursor, s.1 = bs → cursorInv bs s.2 →
      (applyOps w os s).1 = bs ∧ cursorInv bs (applyOps w os s).2 by
    exact h ops hm (bs, initialCursor bs) rfl hinit
  intro os
  induction os with
  | nil => exact fun _ s h1 h2 => ⟨h1, h2⟩
  | cons op rest ih =>
    intro hmm s h1 h2
    obtain ⟨s1, c⟩ := s
    simp only at h1 h2
    subst h1
    have hstep := cursorInv_move w s1 c op hv h2
      (hmm op (List.mem_cons_self op rest))
    exact ih (fun o ho => hmm o (List.mem_cons_of_mem op ho))
      (applyOp w op (s1, c)) hstep.1 hstep.2

/-- Claim C1 as stated is false: `["- a", "- "]` is a valid loaded
document (it passes `validate_file`, indentation is a multiple of the
width, no blank lines), yet one `down` movement from the startup cursor
lands at column 1, strictly below the row's nontext length 2 (and its
`max(len - 1, nontext_length)` is 2, so the claimed interval is empty at
column 1). -/
theorem C1_counterexample :
    validate_file (serialize ["- a".toList, "- ".toList]) =
      Except.ok ["- a".toList, "- ".toList] ∧
    (Cursor.down ["- a".toList, "- ".toList] 1
        (initialCursor ["- a".toList, "- ".toList])).x <
      Cursor.get_nontext_length
        (Cursor.down ["- a".toList, "- ".toList] 1
          (initialCursor ["- a".toList, "- ".toList]))
        ["- a".toList, "- ".toList] :=
  ⟨by rfl, by decide⟩

/-- Witness for `C1_amended`: a two-line minimum-content document, one
`down` then one `right` movement. -/
theorem C1_witness :
    (applyOps 2 [EOp.down 1, EOp.right 1]
        (["- ab".toList, "- cd".toList],
         initialCursor ["- ab".toList, "- cd".toList])).1 =
      ["- ab".toList, "- cd".toList] ∧
    cursorInv ["- ab".toList, "- cd".toList]
      (applyOps 2 [EOp.down 1, EOp.right 1]
        (["- ab".toList, "- cd".toList],
         initialCursor ["- ab".toList, "- cd".toList])).2 :=
  C1_amended 2 ["- ab".toList, "- cd".toList] ⟨by decide, by decide⟩
    [EOp.down 1, EOp.right 1] (by decide)

end BulletNote
